import Mathlib

/-!
Shallow embedding of `doc2md.py`, a docstring-to-Markdown converter.
Lines are modelled as lists of characters (Python strings indexed by
code point); the line-oriented transformer `_doc2md` becomes an explicit
fold over a state record.
-/

set_option maxRecDepth 10000

namespace Doc2md

/-- A text line, as a list of characters (a Python `str` without newline). -/
abbrev Line := List Char

/-- The characters stripped by Python `str.lstrip()` (ASCII whitespace). -/
def isPySpace (c : Char) : Bool :=
  c = ' ' || c = '\t' || c = '\n' || c = '\r' || c = '\x0b' || c = '\x0c'

/-- Python `line.lstrip()`. -/
def lstrip (l : Line) : Line := l.dropWhile isPySpace

/-- Python `len(line) - len(line.lstrip())`: the number of leading whitespace chars. -/
def lineIndent (l : Line) : Nat := (l.takeWhile isPySpace).length

/-- Function `unindent(lines)` from doc2md.py: remove the common indentation, computed
as the minimum indent over the non-empty lines; if every line is empty the
input is returned unchanged (the Python `ValueError` branch). -/
def unindent (lines : List Line) : List Line :=
  match lines.filter (fun l => l ≠ []) with
  | [] => lines
  | x :: xs =>
    let indent := ((x :: xs).map lineIndent).foldl min (lineIndent x)
    lines.map (fun l => l.drop indent)

/-- Function `code_block(lines, language)`: wrap in a fenced code block. -/
def code_block (lines : List Line) (language : String) : List Line :=
  ("```" ++ language).toList :: lines ++ ["```".toList]

/-- The per-line test of `doctest2md`: a line survives the only-code scan when
it starts with a prompt (`">>> "` or `"... "`) or is a bare marker. -/
def promptLine (l : Line) : Bool :=
  (">>> ".toList).isPrefixOf l || ("... ".toList).isPrefixOf l ||
    l = ">>>".toList || l = "...".toList

/-- Function `doctest2md(lines)`: unindent; when every line is prompt-prefixed, strip
the 4-character prompt from each line, otherwise keep the lines. -/
def doctest2md (lines : List Line) : List Line :=
  let lines := unindent lines
  if lines.all promptLine then lines.map (fun l => l.drop 4) else lines

/-- Function `doc_code_block(lines, language)`: python blocks pass through
`doctest2md` before fencing. -/
def doc_code_block (lines : List Line) (language : String) : List Line :=
  if language = "python" then code_block (doctest2md lines) language
  else code_block lines language

/-- After the first `#`, the regex `^#+ ` accepts more `#`s and then one space. -/
def hashThenSpace : Line → Bool
  | [] => false
  | c :: rest => if c = '#' then hashThenSpace rest else if c = ' ' then true else false

/-- Predicate `is_heading(line)`: the line matches `^#+ `. -/
def is_heading : Line → Bool
  | [] => false
  | c :: rest => if c = '#' then hashThenSpace rest else false

/-- Function `get_heading(line)`: `line.partition(' ')`, returning the length of the
part before the first space and the part after it. -/
def get_heading (l : Line) : Nat × Line :=
  ((l.takeWhile (fun c => c ≠ ' ')).length, (l.dropWhile (fun c => c ≠ ' ')).drop 1)

/-- Function `make_heading(level, title)`: `'#'*max(level, 1) + ' ' + title`. -/
def make_heading (level : Nat) (title : Line) : Line :=
  List.replicate (max level 1) '#' ++ ' ' :: title

/-- Function `find_sections(lines)`: collect `get_heading` of every heading line, in
order; raise on a heading that does not start with `##`. -/
def find_sections : List Line → Except String (List (Nat × Line))
  | [] => .ok []
  | l :: rest =>
    if is_heading l then
      if (['#', '#'] : Line).isPrefixOf l then
        match find_sections rest with
        | .ok s => .ok (get_heading l :: s)
        | .error e => .error e
      else .error "Should not be a bigger header"
    else find_sections rest

/-- Worker for `replaceAll`: while `skip` is positive the current character
belongs to an occurrence already replaced and is discarded; at `skip = 0` a
match of `pat` emits `repl` and schedules the remaining matched characters
for discarding. -/
def replaceAllGo (pat repl : Line) : Nat → Line → Line
  | _, [] => []
  | skip + 1, _ :: rest => replaceAllGo pat repl skip rest
  | 0, c :: rest =>
    if pat ≠ [] ∧ pat.isPrefixOf (c :: rest) then
      repl ++ replaceAllGo pat repl (pat.length - 1) rest
    else
      c :: replaceAllGo pat repl 0 rest

/-- Python `str.replace(pat, repl)` for a non-empty pattern: replace every
non-overlapping occurrence, scanning left to right. -/
def replaceAll (pat repl l : Line) : Line :=
  replaceAllGo pat repl 0 l

/-- Function `make_toc(sections)`: one Markdown link item per section, indented by
four spaces per level above the outermost level, anchored at the slug
(lowercase, spaces to hyphens, question marks removed). -/
def make_toc (sections : List (Nat × Line)) : List Line :=
  match sections with
  | [] => []
  | s :: rest =>
    let outer := ((s :: rest).map Prod.fst).foldl min s.1
    (s :: rest).map (fun p =>
      let ref := replaceAll ['?'] [] (replaceAll [' '] ['-'] (p.2.map Char.toLower))
      (List.replicate (p.1 - outer) ("    ".toList)).flatten ++
        "- [".toList ++ p.2 ++ "](#".toList ++ ref ++ ")".toList)

/-- The `type_url` table of doc2md.py: type name to Markdown link. -/
def type_url : List (Line × Line) := [
  ("bool".toList, "[bool](https://docs.python.org/2/library/stdtypes.html#boolean-values)".toList),
  ("str".toList, "[str](https://docs.python.org/2/library/stdtypes.html#sequence-types-str-unicode-list-tuple-bytearray-buffer-xrange)".toList),
  ("int".toList, "[int](https://docs.python.org/2/library/stdtypes.html#numeric-types-int-float-long-complex)".toList),
  ("float".toList, "[float](https://docs.python.org/2/library/stdtypes.html#numeric-types-int-float-long-complex)".toList),
  ("list".toList, "[list](https://docs.python.org/2/tutorial/datastructures.html#more-on-lists)".toList),
  ("Exception".toList, "[Exception](https://docs.python.org/2/tutorial/errors.html)".toList)]

/-- Python `pat in line`: `pat` occurs as a contiguous substring of `line`. -/
def containsSub (pat l : Line) : Bool :=
  l.tails.any (fun t => pat.isPrefixOf t)

/-- The directive type-substitution loop of `_doc2md`: for each table entry in
order, when the name occurs in the current line, replace every occurrence. -/
def subst_types (l : Line) : Line :=
  type_url.foldl
    (fun line p => if containsSub p.1 line then replaceAll p.1 p.2 line else line) l

/-- The mutable state of the `_doc2md` loop: the emitted lines `md` and, when
`is_code`, the accumulated block together with its language. -/
structure TState where
  md : List Line
  code : Option (List Line × String)
deriving DecidableEq

/-- One iteration of the `_doc2md` `for` loop on a single input line. -/
def step (shiftlevel : Nat) (s : TState) (line : Line) : TState :=
  let trimmed := lstrip line
  match s.code with
  | some (code, language) =>
    if line ≠ [] then ⟨s.md, some (code ++ [line], language)⟩
    else ⟨s.md ++ doc_code_block code language ++ [line], none⟩
  | none =>
    if (">>> ".toList).isPrefixOf trimmed then ⟨s.md, some ([line], "python")⟩
    else if ("$ ".toList).isPrefixOf trimmed then ⟨s.md, some ([line], "bash")⟩
    else if shiftlevel ≠ 0 ∧ is_heading line then
      ⟨s.md ++ [make_heading ((get_heading line).1 + shiftlevel) (get_heading line).2],
        none⟩
    else if (":param".toList).isPrefixOf trimmed then
      ⟨s.md ++ [lstrip (subst_types (replaceAll ":param".toList "-".toList line))], none⟩
    else if (":throw".toList).isPrefixOf trimmed then
      ⟨s.md ++ [[], lstrip (subst_types (replaceAll ":throw".toList "- throw".toList line))],
        none⟩
    else if (":return".toList).isPrefixOf trimmed then
      ⟨s.md ++ [[], lstrip (subst_types (replaceAll ":return".toList "- return".toList line))],
        none⟩
    else ⟨s.md ++ [line], none⟩

/-- Function `_doc2md(lines, shiftlevel)`: fold the loop over the lines, flush a still
open code block, and append one empty line. -/
def _doc2md (lines : List Line) (shiftlevel : Nat) : List Line :=
  let s := lines.foldl (step shiftlevel) ⟨[], none⟩
  (match s.code with
   | some (code, language) => s.md ++ doc_code_block code language
   | none => s.md) ++ [[]]

/-- The section/shift computation of `doc2md` (doc2md.py lines 206-216):
determine the outermost section level, and when it is below `min_level`,
compute the shift and raise every section level by it.  Returns the pair
`(shiftlevel, sections)`. -/
def doc2md_shift (sections : List (Nat × Line)) (min_level : Nat) :
    Nat × List (Nat × Line) :=
  let level := match sections with
    | [] => min_level
    | s :: rest => ((s :: rest).map Prod.fst).foldl min s.1
  if level < min_level then
    (min_level - level,
      sections.map (fun p => (p.1 + (min_level - level), p.2)))
  else (0, sections)

/-- The number of trailing empty lines of an output. -/
def trailingBlankCount (out : List Line) : Nat :=
  (out.reverse.takeWhile (fun l => l = ([] : Line))).length

/-! ### Heading lemmas -/

lemma hashThenSpace_shape {l : Line} (h : hashThenSpace l = true) :
    ∃ k t, l = List.replicate k '#' ++ ' ' :: t := by
  induction l with
  | nil => simp [hashThenSpace] at h
  | cons c rest ih =>
    rw [hashThenSpace] at h
    by_cases hc : c = '#'
    · rw [if_pos hc] at h
      obtain ⟨k, t, ht⟩ := ih h
      exact ⟨k + 1, t, by simp [List.replicate_succ, hc, ht]⟩
    · rw [if_neg hc] at h
      by_cases hs : c = ' '
      · exact ⟨0, rest, by simp [List.replicate, hs]⟩
      · rw [if_neg hs] at h
        exact absurd h (by simp)

lemma is_heading_shape {l : Line} (h : is_heading l = true) :
    ∃ k t, l = List.replicate (k + 1) '#' ++ ' ' :: t := by
  match l with
  | [] => simp [is_heading] at h
  | c :: rest =>
    rw [is_heading] at h
    by_cases hc : c = '#'
    · rw [if_pos hc] at h
      obtain ⟨k, t, ht⟩ := hashThenSpace_shape h
      exact ⟨k, t, by simp [List.replicate_succ, hc, ht]⟩
    · rw [if_neg hc] at h
      exact absurd h (by simp)

lemma takeWhile_heading (k : Nat) (t : Line) :
    (List.replicate (k + 1) '#' ++ ' ' :: t).takeWhile (fun c => c ≠ ' ') =
      List.replicate (k + 1) '#' := by
  induction k with
  | zero => simp [List.replicate, List.takeWhile_cons]
  | succ n ih => simp [List.replicate_succ, List.takeWhile_cons, ih]

lemma dropWhile_heading (k : Nat) (t : Line) :
    (List.replicate (k + 1) '#' ++ ' ' :: t).dropWhile (fun c => c ≠ ' ') =
      ' ' :: t := by
  induction k with
  | zero => simp [List.replicate, List.dropWhile_cons]
  | succ n ih => simp [List.replicate_succ, List.dropWhile_cons, ih]

lemma get_heading_repl (k : Nat) (t : Line) :
    get_heading (List.replicate (k + 1) '#' ++ ' ' :: t) = (k + 1, t) := by
  rw [get_heading, takeWhile_heading, dropWhile_heading]
  simp

lemma heading_level_one {l : Line} (h : is_heading l = true) :
    (get_heading l).1 = 1 ↔ (['#', '#'] : Line).isPrefixOf l = false := by
  obtain ⟨k, t, rfl⟩ := is_heading_shape h
  rw [get_heading_repl]
  cases k with
  | zero => simp [List.replicate, List.isPrefixOf]
  | succ n => simp [List.replicate_succ, List.isPrefixOf]

/-! ### Claim theorems -/

/-- C9: for every well-formed heading line (matching `^#+ `), composing
`get_heading` with `make_heading` reproduces the original line. -/
theorem c9_heading_round_trip (l : Line) (h : is_heading l = true) :
    make_heading (get_heading l).1 (get_heading l).2 = l := by
  obtain ⟨k, t, rfl⟩ := is_heading_shape h
  rw [get_heading_repl]
  simp [make_heading, Nat.max_eq_left (Nat.succ_le_succ (Nat.zero_le k))]

/-- Witness for C9 at the concrete heading line `"## Title"`. -/
theorem c9_heading_round_trip_witness :
    make_heading (get_heading (("## Title").toList)).1
      (get_heading (("## Title").toList)).2 = ("## Title").toList :=
  c9_heading_round_trip (("## Title").toList) (by decide)

/-- C6: `find_sections` returns the `(level, title)` pairs of exactly the
heading lines of the input, in document order, and raises if and only if some
heading line of the input is a level-1 heading. -/
theorem c6_find_sections (lines : List Line) :
    ((∀ l ∈ lines, is_heading l = true → (get_heading l).1 ≠ 1) →
      find_sections lines =
        .ok ((lines.filter (fun l => is_heading l)).map get_heading))
    ∧ ((∃ l ∈ lines, is_heading l = true ∧ (get_heading l).1 = 1) →
      ∃ e, find_sections lines = .error e) := by
  induction lines with
  | nil =>
    refine ⟨fun _ => rfl, ?_⟩
    rintro ⟨l, hl, -⟩
    exact absurd hl (List.not_mem_nil l)
  | cons l rest ih =>
    constructor
    · intro h
      have hrest : ∀ x ∈ rest, is_heading x = true → (get_heading x).1 ≠ 1 :=
        fun x hx => h x (List.mem_cons_of_mem l hx)
      by_cases hh : is_heading l = true
      · have hp : (['#', '#'] : Line).isPrefixOf l = true := by
          cases hb : (['#', '#'] : Line).isPrefixOf l with
          | false =>
            exact absurd ((heading_level_one hh).mpr hb)
              (h l (List.mem_cons_self l rest) hh)
          | true => rfl
        rw [find_sections]
        simp [hh, hp, ih.1 hrest, List.filter_cons]
      · rw [find_sections]
        simp [hh, ih.1 hrest, List.filter_cons]
    · rintro ⟨x, hx, hxh, hx1⟩
      rcases List.mem_cons.mp hx with rfl | hx'
      · have hp : (['#', '#'] : Line).isPrefixOf x = false :=
          (heading_level_one hxh).mp hx1
        exact ⟨"Should not be a bigger header", by rw [find_sections]; simp [hxh, hp]⟩
      · obtain ⟨e, he⟩ := ih.2 ⟨x, hx', hxh, hx1⟩
        by_cases hh : is_heading l = true
        · cases hp : (['#', '#'] : Line).isPrefixOf l with
          | false =>
            exact ⟨"Should not be a bigger header", by rw [find_sections]; simp [hh, hp]⟩
          | true => exact ⟨e, by rw [find_sections]; simp [hh, hp, he]⟩
        · exact ⟨e, by rw [find_sections]; simp [hh, he]⟩

/-- Witness for C6 at a concrete two-heading input with no level-1 heading. -/
theorem c6_find_sections_witness :
    find_sections [("## A").toList, ("text").toList, ("### B").toList] =
      .ok (([("## A").toList, ("text").toList, ("### B").toList].filter
        (fun l => is_heading l)).map get_heading) :=
  (c6_find_sections _).1 (by decide)

/-- C10: when a transcript block is classified as pure code, bare marker lines
that are exactly `>>>` or `...` are stripped by removing the first 4
characters like every other line, yielding an empty line in the fenced
output. -/
theorem c10_bare_marker_strip :
    (∀ lines : List Line, (unindent lines).all promptLine = true →
      doctest2md lines = (unindent lines).map (fun l => l.drop 4))
    ∧ doctest2md
        [(">>> a").toList, (">>>").toList, ("...").toList, ("... b").toList] =
      [("a").toList, ([] : Line), ([] : Line), ("b").toList]
    ∧ ((">>>").toList).drop 4 = ([] : Line)
    ∧ (("...").toList).drop 4 = ([] : Line) := by
  refine ⟨?_, by decide, by decide, by decide⟩
  intro lines h
  rw [doctest2md]
  simp [h]

/-- Witness for C10 at the one-line input consisting of a bare `>>>`. -/
theorem c10_bare_marker_strip_witness :
    doctest2md [(">>>").toList] =
      (unindent [(">>>").toList]).map (fun l => l.drop 4) :=
  c10_bare_marker_strip.1 _ (by decide)

/-- C1: for a transcript block passed to `doc_code_block` with language
`python`, when after unindenting every line passes the prompt test the
4-character prompt is stripped from every line before fencing, and otherwise
the unindented block is fenced with prompts and output lines intact; the two
concrete examples of the claim evaluate as stated. -/
theorem c1_transcript_classification :
    (∀ lines : List Line, (unindent lines).all promptLine = true →
      doc_code_block lines "python" =
        code_block ((unindent lines).map (fun l => l.drop 4)) "python")
    ∧ (∀ lines : List Line, (unindent lines).all promptLine = false →
      doc_code_block lines "python" = code_block (unindent lines) "python")
    ∧ doc_code_block [(">>> x = 1").toList, (">>> x").toList, ("1").toList]
        "python" =
      [("```python").toList, (">>> x = 1").toList, (">>> x").toList,
        ("1").toList, ("```").toList]
    ∧ doc_code_block [(">>> x = 1").toList, (">>> y = 2").toList] "python" =
      [("```python").toList, ("x = 1").toList, ("y = 2").toList,
        ("```").toList] := by
  refine ⟨?_, ?_, by decide, by decide⟩
  · intro lines h
    rw [doc_code_block, doctest2md]
    simp [h]
  · intro lines h
    rw [doc_code_block, doctest2md]
    simp [h]

/-- Witness for C1 at a one-line pure-code transcript. -/
theorem c1_transcript_classification_witness :
    doc_code_block [(">>> y").toList] "python" =
      code_block ((unindent [(">>> y").toList]).map (fun l => l.drop 4))
        "python" :=
  c1_transcript_classification.1 _ (by decide)

lemma doc2md_eq_append (lines : List Line) (shiftlevel : Nat) :
    ∃ X : List Line, _doc2md lines shiftlevel = X ++ [[]] := ⟨_, rfl⟩

/-- C7 as stated is false: on the input consisting of one empty line the
output is two empty lines, which does not end with exactly one trailing
empty line. -/
theorem c7_counterexample :
    _doc2md [([] : Line)] 0 = [([] : Line), ([] : Line)]
    ∧ trailingBlankCount (_doc2md [([] : Line)] 0) = 2
    ∧ trailingBlankCount (_doc2md [([] : Line)] 0) ≠ 1 := by decide

/-- C7 (amended): for every input line sequence the output of `_doc2md` is
nonempty and ends with an empty line; exactly one empty line is appended
after processing, but the output can end with more than one empty line when
the processed body itself ends with one. -/
theorem c7_trailing_blank (lines : List Line) (shiftlevel : Nat) :
    (_doc2md lines shiftlevel).getLast? = some ([] : Line)
    ∧ 1 ≤ trailingBlankCount (_doc2md lines shiftlevel) := by
  obtain ⟨X, hX⟩ := doc2md_eq_append lines shiftlevel
  rw [hX, trailingBlankCount]
  constructor
  · simp
  · simp [List.takeWhile_cons]

/-- C8: when the input ends while a code block is still being accumulated,
the block is flushed through the classifier and fenced, with no blank line
between the fence and the final appended empty line. -/
theorem c8_flush_at_end (lines : List Line) (shiftlevel : Nat)
    (code : List Line) (language : String)
    (h : (lines.foldl (step shiftlevel) (⟨[], none⟩ : TState)).code =
      some (code, language)) :
    _doc2md lines shiftlevel =
      (lines.foldl (step shiftlevel) (⟨[], none⟩ : TState)).md ++
        doc_code_block code language ++ [[]] := by
  simp only [_doc2md, h]

/-- Witness for C8: a single unterminated transcript line is flushed. -/
theorem c8_flush_at_end_witness :
    _doc2md [(">>> x = 1").toList] 0 =
      ([(">>> x = 1").toList].foldl (step 0) (⟨[], none⟩ : TState)).md ++
        doc_code_block [(">>> x = 1").toList] "python" ++ [[]] :=
  c8_flush_at_end _ _ _ _ (by decide)

/-! ### Prefix and lstrip lemmas -/

lemma isPrefixOf_cons_cons (a b : Char) (as bs : Line) :
    (a :: as).isPrefixOf (b :: bs) = (a == b && as.isPrefixOf bs) := rfl

lemma not_prefix_of_head {a b : Char} (hab : ¬ a = b) (as bs : Line) :
    (a :: as).isPrefixOf (b :: bs) = false := by
  rw [isPrefixOf_cons_cons]
  simp [hab]

lemma prefix_head {a : Char} {as l : Line}
    (h : (a :: as).isPrefixOf l = true) : ∃ t, l = a :: t := by
  cases l with
  | nil => simp [List.isPrefixOf] at h
  | cons b bs =>
    rw [isPrefixOf_cons_cons] at h
    obtain ⟨h1, -⟩ := (Bool.and_eq_true _ _).mp h
    exact ⟨bs, by rw [eq_of_beq h1]⟩

lemma lstrip_heading {l : Line} (h : is_heading l = true) : lstrip l = l := by
  obtain ⟨k, t, rfl⟩ := is_heading_shape h
  rw [List.replicate_succ, List.cons_append, lstrip, List.dropWhile_cons]
  simp [isPySpace]

lemma heading_cons {l : Line} (h : is_heading l = true) :
    ∃ rest, l = '#' :: rest := by
  obtain ⟨k, t, rfl⟩ := is_heading_shape h
  exact ⟨_, by rw [List.replicate_succ, List.cons_append]⟩

/-- C2 as stated is false: the parameter marker is replaced by a lone `-`,
so the word `param` does not survive into the emitted bullet line. -/
theorem c2_counterexample :
    _doc2md [(":param x: a bool value").toList] 0 =
      [("- x: a [bool](https://docs.python.org/2/library/stdtypes.html#boolean-values) value").toList,
        ([] : Line)]
    ∧ (("- param").toList).isPrefixOf
        (("- x: a [bool](https://docs.python.org/2/library/stdtypes.html#boolean-values) value").toList) =
      false := ⟨rfl, rfl⟩

/-- C2 (amended): for a line whose left-stripped content starts with
`:param`, the transformer in NORMAL state emits exactly one output line, the
line with every occurrence of `:param` replaced by `-` and recognized type
names replaced by documentation links, left-stripped; the input line
`":param x: a bool value"` yields the single output line
`"- x: a [bool](…) value"` with exactly one type substitution. -/
theorem c2_param_directive :
    (∀ (shiftlevel : Nat) (md : List Line) (l : Line),
      ((":param").toList).isPrefixOf (lstrip l) = true →
      step shiftlevel ⟨md, none⟩ l =
        ⟨md ++
          [lstrip (subst_types (replaceAll ((":param").toList) (("-").toList) l))],
          none⟩)
    ∧ _doc2md [(":param x: a bool value").toList] 0 =
        [("- x: a [bool](https://docs.python.org/2/library/stdtypes.html#boolean-values) value").toList,
          ([] : Line)]
    ∧ (type_url.filter
        (fun p => containsSub p.1 (("- x: a bool value").toList))).length = 1 := by
  refine ⟨?_, rfl, rfl⟩
  intro shiftlevel md l h
  have h' : (':' :: ('p' :: 'a' :: 'r' :: 'a' :: 'm' :: [])).isPrefixOf
      (lstrip l) = true := h
  obtain ⟨t, ht⟩ := prefix_head h'
  have hnh : is_heading l = false := by
    cases hih : is_heading l with
    | false => rfl
    | true =>
      obtain ⟨rest, hr⟩ := heading_cons hih
      have hsl := lstrip_heading hih
      rw [hsl, hr] at ht
      simp at ht
  have h1 : ((">>> ").toList).isPrefixOf (lstrip l) = false := by
    rw [ht]; exact not_prefix_of_head (by decide) _ _
  have h2 : (("$ ").toList).isPrefixOf (lstrip l) = false := by
    rw [ht]; exact not_prefix_of_head (by decide) _ _
  simp only [step, h1, h2, hnh, h, Bool.false_eq_true, and_false, if_false,
    if_true, Bool.not_eq_true]

/-- Witness for C2 at the concrete line `":param q"`. -/
theorem c2_param_directive_witness :
    step 0 ⟨[], none⟩ ((":param q").toList) =
      ⟨[lstrip (subst_types (replaceAll ((":param").toList) (("-").toList)
        ((":param q").toList)))], none⟩ :=
  c2_param_directive.1 0 [] _ (by decide)

/-- C4: the heading-shift computation of `doc2md` leaves the sections of the
example unchanged at minimum level 1 and shifts them by 1 at minimum level 3,
and the transformer rewrites every heading line by adding the shift to its
level with the title unchanged, while a zero shift leaves heading lines
untouched. -/
theorem c4_heading_shift :
    doc2md_shift [(2, ("A").toList), (3, ("B").toList)] 1 =
      (0, [(2, ("A").toList), (3, ("B").toList)])
    ∧ doc2md_shift [(2, ("A").toList), (3, ("B").toList)] 3 =
      (1, [(3, ("A").toList), (4, ("B").toList)])
    ∧ (∀ (shiftlevel : Nat) (md : List Line) (l : Line), shiftlevel ≠ 0 →
        is_heading l = true →
        step shiftlevel ⟨md, none⟩ l =
          ⟨md ++ [make_heading ((get_heading l).1 + shiftlevel)
            (get_heading l).2], none⟩)
    ∧ (∀ (md : List Line) (l : Line), is_heading l = true →
        step 0 ⟨md, none⟩ l = ⟨md ++ [l], none⟩) := by
  refine ⟨by decide, by decide, ?_, ?_⟩
  · intro shiftlevel md l hs hh
    obtain ⟨rest, hr⟩ := heading_cons hh
    have hsl := lstrip_heading hh
    have h1 : ((">>> ").toList).isPrefixOf (lstrip l) = false := by
      rw [hsl, hr]; exact not_prefix_of_head (by decide) _ _
    have h2 : (("$ ").toList).isPrefixOf (lstrip l) = false := by
      rw [hsl, hr]; exact not_prefix_of_head (by decide) _ _
    simp only [step, h1, h2, Bool.false_eq_true, if_false]
    simp [hs, hh]
  · intro md l hh
    obtain ⟨rest, hr⟩ := heading_cons hh
    have hsl := lstrip_heading hh
    have h1 : ((">>> ").toList).isPrefixOf (lstrip l) = false := by
      rw [hsl, hr]; exact not_prefix_of_head (by decide) _ _
    have h2 : (("$ ").toList).isPrefixOf (lstrip l) = false := by
      rw [hsl, hr]; exact not_prefix_of_head (by decide) _ _
    have h3 : ((":param").toList).isPrefixOf (lstrip l) = false := by
      rw [hsl, hr]; exact not_prefix_of_head (by decide) _ _
    have h4 : ((":throw").toList).isPrefixOf (lstrip l) = false := by
      rw [hsl, hr]; exact not_prefix_of_head (by decide) _ _
    have h5 : ((":return").toList).isPrefixOf (lstrip l) = false := by
      rw [hsl, hr]; exact not_prefix_of_head (by decide) _ _
    simp only [step, h1, h2, h3, h4, h5, Bool.false_eq_true, if_false]
    simp

/-- Witness for C4 at the concrete heading `"## A"` with shift 1. -/
theorem c4_heading_shift_witness :
    step 1 ⟨[], none⟩ (("## A").toList) =
      ⟨[make_heading ((get_heading (("## A").toList)).1 + 1)
        (get_heading (("## A").toList)).2], none⟩ :=
  c4_heading_shift.2.2.1 1 [] _ (by decide) (by decide)

/-! ### TOC slug refinement -/

/-- Anchor slug written after the words of the specification: lowercase the
title, replace spaces with hyphens, remove question marks. -/
def slug_spec (t : Line) : Line :=
  ((t.map Char.toLower).map (fun c => if c = ' ' then '-' else c)).filter
    (fun c => c != '?')

/-- One TOC entry written after the words of the specification: an item
indented by `level - outer` nesting units linking the title to its slug. -/
def toc_entry_spec (outer : Nat) (p : Nat × Line) : Line :=
  (List.replicate (p.1 - outer) (("    ").toList)).flatten ++ ("- [").toList ++
    p.2 ++ ("](#").toList ++ slug_spec p.2 ++ (")").toList

lemma replaceAllGo_single (a b : Char) (l : Line) :
    replaceAllGo [a] [b] 0 l = l.map (fun c => if c = a then b else c) := by
  induction l with
  | nil => rfl
  | cons c rest ih =>
    rw [replaceAllGo]
    by_cases hc : c = a
    · rw [if_pos ⟨by simp, by simp [isPrefixOf_cons_cons, hc]⟩]
      simp [hc, ih]
    · rw [if_neg ?_]
      · simp [hc, ih]
      · rintro ⟨-, hpre⟩
        rw [isPrefixOf_cons_cons] at hpre
        simp at hpre
        exact hc hpre.symm

lemma replaceAll_single (a b : Char) (l : Line) :
    replaceAll [a] [b] l = l.map (fun c => if c = a then b else c) :=
  replaceAllGo_single a b l

lemma replaceAllGo_del (a : Char) (l : Line) :
    replaceAllGo [a] [] 0 l = l.filter (fun c => c != a) := by
  induction l with
  | nil => rfl
  | cons c rest ih =>
    rw [replaceAllGo]
    by_cases hc : c = a
    · rw [if_pos ⟨by simp, by simp [isPrefixOf_cons_cons, hc]⟩]
      simp [List.filter_cons, hc, ih]
    · rw [if_neg ?_]
      · simp [List.filter_cons, hc, ih]
      · rintro ⟨-, hpre⟩
        rw [isPrefixOf_cons_cons] at hpre
        simp at hpre
        exact hc hpre.symm

lemma replaceAll_del (a : Char) (l : Line) :
    replaceAll [a] [] l = l.filter (fun c => c != a) :=
  replaceAllGo_del a l

lemma foldl_min_le (l : List Nat) (a : Nat) :
    l.foldl min a ≤ a ∧ ∀ x ∈ l, l.foldl min a ≤ x := by
  induction l generalizing a with
  | nil => exact ⟨le_refl a, by simp⟩
  | cons b bs ih =>
    simp only [List.foldl_cons]
    obtain ⟨h1, h2⟩ := ih (min a b)
    refine ⟨le_trans h1 (min_le_left a b), ?_⟩
    intro x hx
    rcases List.mem_cons.mp hx with rfl | hx'
    · exact le_trans h1 (min_le_right a x)
    · exact h2 x hx'

lemma foldl_min_mem (l : List Nat) (a : Nat) :
    l.foldl min a = a ∨ l.foldl min a ∈ l := by
  induction l generalizing a with
  | nil => exact Or.inl rfl
  | cons b bs ih =>
    simp only [List.foldl_cons]
    rcases ih (min a b) with h | h
    · rcases le_total a b with hab | hba
      · exact Or.inl (by rw [h, min_eq_left hab])
      · exact Or.inr (by rw [h, min_eq_right hba]; exact List.mem_cons_self b bs)
    · exact Or.inr (List.mem_cons_of_mem b h)

/-- C5: `make_toc` of the empty section list is empty; otherwise it emits one
item per section in document order, indented by `level - outer` nesting units
where `outer` is the minimum level over all sections, each linking the title
to its anchor slug (lowercased, spaces to hyphens, question marks removed);
the title `"What now?"` yields the anchor `what-now`. -/
theorem c5_make_toc :
    make_toc [] = []
    ∧ (∀ (s : Nat × Line) (rest : List (Nat × Line)),
        make_toc (s :: rest) =
          (s :: rest).map
            (toc_entry_spec (((s :: rest).map Prod.fst).foldl min s.1)))
    ∧ (∀ (s : Nat × Line) (rest : List (Nat × Line)) (p : Nat × Line),
        p ∈ s :: rest → ((s :: rest).map Prod.fst).foldl min s.1 ≤ p.1)
    ∧ (∀ (s : Nat × Line) (rest : List (Nat × Line)),
        ((s :: rest).map Prod.fst).foldl min s.1 ∈ (s :: rest).map Prod.fst)
    ∧ slug_spec (("What now?").toList) = ("what-now").toList
    ∧ make_toc [(2, ("What now?").toList)] =
        [("- [What now?](#what-now)").toList] := by
  refine ⟨rfl, ?_, ?_, ?_, by decide, by decide⟩
  · intro s rest
    simp only [make_toc]
    apply List.map_congr_left
    intro p _
    simp only [replaceAll_single, replaceAll_del, toc_entry_spec, slug_spec]
  · intro s rest p hp
    simp only [List.map_cons, List.foldl_cons, min_self]
    obtain ⟨h1, h2⟩ := foldl_min_le (rest.map Prod.fst) s.1
    rcases List.mem_cons.mp hp with rfl | hp'
    · exact h1
    · exact h2 p.1 (List.mem_map_of_mem Prod.fst hp')
  · intro s rest
    simp only [List.map_cons, List.foldl_cons, min_self]
    rcases foldl_min_mem (rest.map Prod.fst) s.1 with h | h
    · rw [h]; exact List.mem_cons_self _ _
    · exact List.mem_cons_of_mem _ h

/-- Witness for C5: the outer level bounds the first section of a concrete
two-section list. -/
theorem c5_make_toc_witness :
    (([((2 : Nat), ("A").toList), ((3 : Nat), ("B").toList)]).map
      Prod.fst).foldl min 2 ≤ 2 :=
  c5_make_toc.2.2.1 ((2 : Nat), ("A").toList) [((3 : Nat), ("B").toList)]
    ((2 : Nat), ("A").toList) (by decide)

/-- C3 is contradicted by the code: on the input line `":return: an int"` the
transformer emits a blank line and a bullet, but the substitution loop also
replaces the substring `float` occurring inside the freshly inserted `int`
documentation URL, so the emitted link is not intact and two substitutions
fire rather than one. -/
theorem c3_return_directive_eval :
    _doc2md [(":return: an int").toList] 0 =
      [([] : Line),
        ("- return: an [int](https://docs.python.org/2/library/stdtypes.html#numeric-types-int-[float](https://docs.python.org/2/library/stdtypes.html#numeric-types-int-float-long-complex)-long-complex)").toList,
        ([] : Line)]
    ∧ containsSub (("[float](").toList)
        (("- return: an [int](https://docs.python.org/2/library/stdtypes.html#numeric-types-int-[float](https://docs.python.org/2/library/stdtypes.html#numeric-types-int-float-long-complex)-long-complex)").toList) =
      true
    ∧ _doc2md [(":return: an int").toList] 0 ≠
      [([] : Line),
        ("- return: an [int](https://docs.python.org/2/library/stdtypes.html#numeric-types-int-float-long-complex)").toList,
        ([] : Line)] := by
  refine ⟨rfl, rfl, ?_⟩
  decide

end Doc2md
